import Mathlib

set_option maxHeartbeats 1600000

/-!
Shallow embedding of the HH job parser repository.

Retrieval pipeline (`src/Request_func.py`): `clean_html`, `parse_vacancy`,
`has_required_skills`, the `HHClient` fetch methods and the main loop of
`get_vacancies_async`.  The HTTP environment (probe response, page responses,
per-vacancy detail responses) is an explicit oracle `Env`; exceptions
(`CaptchaRequired`) become an `Except` error.

Apply pipeline (`src/selenium_utils.py`): the batch partitioning and outcome
counting of `apply_to_vacancy_batch` / `apply_to_vacancies_parallel_batched`,
with the browser interaction of `process_single_vacancy` abstracted as an
outcome oracle assigning each vacancy its returned status string.
-/

/-- Values stored in a vacancy record dictionary (`Dict` in the Python source):
either a string field or the numeric id. -/
inductive Val where
  | str : String → Val
  | nat : Nat → Val
deriving DecidableEq

/-- A parsed vacancy record: the key/value dictionary built by `parse_vacancy`
(`Request_func.py` lines 109-113). -/
abbrev VacRec := List (String × Val)

/-- A listing-level vacancy summary as returned by one search page
(the fields of the HH API summary objects that the repository reads or
that the spec's `VacancySummary` names). -/
structure Summary where
  id : Nat
  name : String
  url : String
  salary_from : Option Nat
  salary_to : Option Nat
  area : String
deriving DecidableEq

/-- A per-vacancy detail object (`fetch_details` response body): the fields the
repository reads — `description` and the names of `key_skills`. -/
structure Detail where
  description : Option String
  key_skills : List String
deriving DecidableEq

/-- Python's `str.lower()` restricted to the characters the repository
manipulates: ASCII letters and the Russian alphabet. -/
def pyLowerChar (c : Char) : Char :=
  if 0x410 ≤ c.toNat ∧ c.toNat ≤ 0x42F then Char.ofNat (c.toNat + 0x20)
  else if c.toNat = 0x401 then Char.ofNat 0x451
  else c.toLower

/-- `s.lower()` on a whole string. -/
def pyLower (s : String) : String := String.mk (s.data.map pyLowerChar)

/-- The whitespace class `\s` of Python's `re` (ASCII part) and of
`str.strip()`. -/
def isSpaceChar (c : Char) : Bool :=
  c = ' ' || c = '\t' || c = '\n' || c = '\r' || c = '\x0b' || c = '\x0c'

/-- Length matched by `\s*/?>` in the pattern `<br\s*/?>` starting after the
literal `<br`: greedily skip whitespace, then an optional `/`, then `>`. -/
def brTail : List Char → Option Nat
  | '>' :: _ => some 1
  | '/' :: '>' :: _ => some 2
  | c :: rest => if isSpaceChar c then (brTail rest).map (· + 1) else none
  | [] => none

/-- Length of a match of `re.sub`'s pattern `<br\s*/?>` at the head of the
character list (`clean_html`, line 85), `none` if it does not match here. -/
def brLen : List Char → Option Nat
  | '<' :: 'b' :: 'r' :: rest => (brTail rest).map (· + 3)
  | _ => none

/-- Number of characters up to and including the first `>`. -/
def findGt : List Char → Option Nat
  | [] => none
  | c :: rest => if c = '>' then some 1 else (findGt rest).map (· + 1)

/-- Length of a match of the pattern `<[^>]+>` at the head of the list
(`clean_html`, line 87). -/
def tagLen : List Char → Option Nat
  | '<' :: c :: rest => if c = '>' then none else (findGt rest).map (· + 2)
  | _ => none

/-- Number of characters up to and including the first `;`. -/
def findSemi : List Char → Option Nat
  | [] => none
  | c :: rest => if c = ';' then some 1 else (findSemi rest).map (· + 1)

/-- Length of a match of the pattern `&[^;]+;` at the head of the list
(`clean_html`, line 89). -/
def entLen : List Char → Option Nat
  | '&' :: c :: rest => if c = ';' then none else (findSemi rest).map (· + 2)
  | _ => none

/-- `re.sub`: scan left to right, replacing each non-overlapping match found
by the matcher `m` with `r`.  Fuel-driven so the kernel can evaluate it; the
fuel is set to the list length, which suffices because every match consumes at
least one character (the matchers above never match an empty prefix, and a
zero-length match reported by `m` is ignored). -/
def subScan (m : List Char → Option Nat) (r : List Char) : Nat → List Char → List Char
  | 0, l => l
  | _ + 1, [] => []
  | f + 1, c :: cs =>
    match m (c :: cs) with
    | some (n + 1) => r ++ subScan m r f ((c :: cs).drop (n + 1))
    | _ => c :: subScan m r f cs

/-- `re.sub(r'\n+', '\n', text)`: collapse runs of newlines. -/
def collapseNl : List Char → List Char
  | [] => []
  | [c] => [c]
  | c1 :: c2 :: rest =>
    if c1 = '\n' ∧ c2 = '\n' then collapseNl (c2 :: rest)
    else c1 :: collapseNl (c2 :: rest)

/-- Python's `str.strip()`: drop whitespace from both ends. -/
def stripChars (l : List Char) : List Char :=
  ((l.dropWhile isSpaceChar).reverse.dropWhile isSpaceChar).reverse

/-- `clean_html` (`Request_func.py` lines 70-91): replace `<br>` tags by
newlines, delete remaining HTML tags, replace HTML entities by spaces,
collapse repeated newlines and strip the ends. -/
def clean_html (raw_html : String) : String :=
  let text := subScan brLen ['\n'] raw_html.data.length raw_html.data
  let text := subScan tagLen [] text.length text
  let text := subScan entLen [' '] text.length text
  String.mk (stripChars (collapseNl text))

/-- `parse_vacancy` (`Request_func.py` lines 94-113): build the standardized
vacancy dictionary with keys `id`, `name`, `description`, where the
description defaults to the placeholder when the detail is absent or its
description is `None` or empty (Python's `description or "Описание
отсутствует"`). -/
def parse_vacancy (vacancy : Summary) (detail : Option Detail) : VacRec :=
  let description := match detail with
    | some d => d.description
    | none => none
  [("id", Val.nat vacancy.id),
   ("name", Val.str vacancy.name),
   ("description", Val.str (clean_html (match description with
      | some s => if s = "" then "Описание отсутствует" else s
      | none => "Описание отсутствует")))]

/-- `has_required_skills` (`Request_func.py` lines 116-135): all required
skills, lowercased, occur among the lowercased `key_skills` names. -/
def has_required_skills (detail : Detail) (required_skills : List String) : Bool :=
  let skills := detail.key_skills.map pyLower
  required_skills.all (fun skill => skills.contains (pyLower skill))

/-- `needle == prefix of hay` on character lists (used for the substring test
of Python's `in` operator). -/
def hasPrefixCS : List Char → List Char → Bool
  | [], _ => true
  | _ :: _, [] => false
  | a :: as, b :: bs => a == b && hasPrefixCS as bs

/-- Python's `needle in hay` substring test on character lists. -/
def hasSubstr (needle : List Char) : List Char → Bool
  | [] => hasPrefixCS needle []
  | c :: cs => hasPrefixCS needle (c :: cs) || hasSubstr needle cs

/-- The fixed denylist `exclude_words` (`Request_func.py` line 335). -/
def exclude_words : List String :=
  ["преподава", "репетитор", "педагог", "учите", "аналитик", "c#", "c++", "frontend"]

/-- The denylist test (`Request_func.py` lines 337-340):
`any(word in v["name"].lower() for word in exclude_words)`. -/
def nameExcluded (name : String) : Bool :=
  exclude_words.any (fun word => hasSubstr word.data (pyLower name).data)

/-- The filter applied to each (summary, detail) pair in the skill branch of
`get_vacancies_async` (line 354): `det and has_required_skills(det,
required_skills)` — a missing detail is dropped. -/
def detailKept (required_skills : List String) (det : Option Detail) : Bool :=
  match det with
  | some d => has_required_skills d required_skills
  | none => false


/-- The raising of `CaptchaRequired` (`Request_func.py` lines 60-66) is
modelled as the error of an `Except`. -/
abbrev CaptchaRequired := Unit

/-- Response of the probe request issued by `get_total_count`: HTTP status and
the `found` field of the JSON body. -/
structure ProbeResp where
  status : Nat
  found : Nat
deriving DecidableEq

/-- Response of one page request issued by `fetch_page`: HTTP status and the
`items` field of the JSON body. -/
structure PageResp where
  status : Nat
  items : List Summary

/-- Response of one detail request issued by `fetch_details`: HTTP status,
whether the body text contains the `captcha_required` marker, and the JSON
body. -/
structure DetailResp where
  status : Nat
  captchaMarker : Bool
  detail : Detail

/-- The HTTP environment of one retrieval run: what the remote service answers
to the probe, to each page request and to each per-id detail request.  The
query parameters (`keyword`, `search_field`, `order_by`) only select these
responses, so they are absorbed into the oracle. -/
structure Env where
  probe : ProbeResp
  pages : Nat → PageResp
  details : Nat → DetailResp

/-- The retrieval configuration (`Settings`, `Request_func.py` lines 35-47).
`max_concurrent` and `request_timeout` only drive the semaphore and the
inter-request delay, which have no effect on the computed results; only
`per_page` shapes the page loop. -/
structure Settings where
  per_page : Nat
deriving DecidableEq

/-- `HHClient.get_total_count` (lines 206-224): on a non-200 status log and
return 0, otherwise return the `found` field. -/
def get_total_count (env : Env) : Nat :=
  if (env.probe).status ≠ 200 then 0 else (env.probe).found

/-- `HHClient.fetch_page` (lines 226-246): on a non-200 status log and return
the empty list, otherwise return the `items` field. -/
def fetch_page (env : Env) (page : Nat) : List Summary :=
  if (env.pages page).status ≠ 200 then [] else (env.pages page).items

/-- The body of `HHClient.fetch_details` (lines 198-204) on one response:
200 returns the JSON body, 403 with the captcha marker raises
`CaptchaRequired`, anything else falls through and returns `None`. -/
def detailResult (r : DetailResp) : Except CaptchaRequired (Option Detail) :=
  if r.status = 200 then .ok (some r.detail)
  else if r.status = 403 ∧ r.captchaMarker = true then .error ()
  else .ok none

/-- `HHClient.fetch_details` for a vacancy id against the environment. -/
def fetch_details (env : Env) (vacancy_id : Nat) : Except CaptchaRequired (Option Detail) :=
  detailResult (env.details vacancy_id)

/-- `HHClient.fetch_details_batch` (lines 248-263): fetch the details of the
listed vacancies' ids; the results are associated positionally with the
input order (as `asyncio.gather` preserves order), and a `CaptchaRequired`
raised by any fetch makes the whole batch raise. -/
def fetch_details_batch (env : Env) (vacancies : List Summary) :
    Except CaptchaRequired (List (Option Detail)) :=
  vacancies.mapM (fun v => fetch_details env v.id)

/-- Modelled from the spec: `DedupGate.loadSeen() -> set<id>` (spec §4.3, §6
`loadProcessedIds`).  `get_vacancies_async` calls
`db.create_processed_urls_table()` and `db.get_all_processed_ids()` (lines
312-313), but `DBVacanciesManager` in `src/DBManager.py` defines neither
method; the ProcessedIdSet snapshot loaded once per run is therefore modelled
as an explicit value handed to the retrieval functions. -/
abbrev ProcessedIdSet := List Nat

/-- One iteration body of the page loop of `get_vacancies_async` (lines
329-359): fetch the page, drop summaries whose id is in the seen snapshot,
drop summaries whose lowered name contains a denylisted word, then either
fetch details and keep only summaries with the required skills
(`required_skills` truthy, i.e. a non-empty list), or take every summary with
no detail.  The error is a `CaptchaRequired` escaping `fetch_details_batch`. -/
def pageContrib (env : Env) (required_skills : Option (List String))
    (seen_ids : ProcessedIdSet) (page : Nat) : Except CaptchaRequired (List VacRec) :=
  let vacancies := fetch_page env page
  let vacancies := vacancies.filter (fun v => !(seen_ids.contains v.id))
  let vacancies := vacancies.filter (fun v => !(nameExcluded v.name))
  match required_skills with
  | some (s :: req) =>
    match fetch_details_batch env vacancies with
    | .error e => .error e
    | .ok details =>
      .ok ((vacancies.zip details).filterMap (fun vd =>
        if detailKept (s :: req) vd.2 then some (parse_vacancy vd.1 vd.2) else none))
  | _ => .ok (vacancies.map (fun v => parse_vacancy v none))

/-- The `while` loop of `get_vacancies_async` (lines 327-368), with explicit
fuel: run while `len(data) < max_vacancies and page * per_page < total_found`;
a page either appends its contribution or, on `CaptchaRequired`, breaks the
loop.  The caller passes fuel `total_found + 1`, which the loop never
exhausts when `per_page ≥ 1` (the guard forces `page < total_found`). -/
def runLoop (cfg : Settings) (env : Env) (max_vacancies : Nat)
    (required_skills : Option (List String)) (seen_ids : ProcessedIdSet)
    (total_found : Nat) : Nat → Nat → List VacRec → List VacRec
  | 0, _, data => data
  | fuel + 1, page, data =>
    if data.length < max_vacancies ∧ page * cfg.per_page < total_found then
      match pageContrib env required_skills seen_ids page with
      | .error _ => data
      | .ok recs =>
        runLoop cfg env max_vacancies required_skills seen_ids total_found fuel (page + 1)
          (data ++ recs)
    else data

/-- `get_vacancies_async` (lines 267-371): probe the total, run the page loop
from page 0 with an empty accumulator, and return the accumulated list
truncated to `max_vacancies` together with the probed total. -/
def get_vacancies_async (cfg : Settings) (env : Env) (max_vacancies : Nat)
    (required_skills : Option (List String)) (seen_ids : ProcessedIdSet) :
    List VacRec × Nat :=
  let total_found := get_total_count env
  let data := runLoop cfg env max_vacancies required_skills seen_ids total_found
    (total_found + 1) 0 []
  (data.take max_vacancies, total_found)

/-- The list accumulated by the loop after the pages `0 .. p-1` have been
processed (a captcha-raising page contributes nothing). -/
def accumUpTo (env : Env) (required_skills : Option (List String))
    (seen_ids : ProcessedIdSet) : Nat → List VacRec
  | 0 => []
  | p + 1 =>
    accumUpTo env required_skills seen_ids p ++
      ((pageContrib env required_skills seen_ids p).toOption.getD [])

/-- The row tuple `DBVacanciesManager.write_data` builds for one record
(`DBManager.py` lines 80-91): reading a missing key raises `KeyError`,
modelled as `none`. -/
def write_data_row (v : VacRec) : Option (Val × Val × Val × Val × Val × Val × Val) := do
  let i ← List.lookup "id" v
  let n ← List.lookup "name" v
  let u ← List.lookup "url" v
  let sf ← List.lookup "salary_from" v
  let st ← List.lookup "salary_to" v
  let a ← List.lookup "area" v
  let d ← List.lookup "description" v
  pure (i, n, u, sf, st, a, d)

/-- The per-run statistics dictionary `final_stats`
(`selenium_utils.py` line 351). -/
structure FinalStats where
  applied : Nat
  already_applied : Nat
  rejected : Nat
  errors : Nat
deriving DecidableEq

/-- The accumulation of one batch's counters into `final_stats`
(`selenium_utils.py` lines 323-326). -/
def FinalStats.add (a b : FinalStats) : FinalStats :=
  ⟨a.applied + b.applied, a.already_applied + b.already_applied,
   a.rejected + b.rejected, a.errors + b.errors⟩

/-- The status dispatch of `apply_to_vacancy_batch` (lines 305-312): exactly
one of the four counters is incremented per processed vacancy, any unknown
status counting as an error. -/
def tallyStatus (status : String) (st : FinalStats) : FinalStats :=
  if status = "applied" then { st with applied := st.applied + 1 }
  else if status = "already_applied" then { st with already_applied := st.already_applied + 1 }
  else if status = "rejected" then { st with rejected := st.rejected + 1 }
  else { st with errors := st.errors + 1 }

/-- `apply_to_vacancy_batch` (lines 277-327) reduced to its counting effect:
process each vacancy of the batch in order and classify the status string
returned by `process_single_vacancy`, which is abstracted as the oracle
`outcome` (it is decided by the remote pages the browser sees). -/
def apply_to_vacancy_batch (outcome : α → String) (vacancies : List α) : FinalStats :=
  vacancies.foldl (fun st v => tallyStatus (outcome v) st) ⟨0, 0, 0, 0⟩

/-- The batch partitioning of `apply_to_vacancies_parallel_batched` (lines
346-348): `batch_size = (len + k - 1) // k` and
`batches = [vacancies[i:i+batch_size] for i in range(0, len, batch_size)]`.
`k = 0` raises `ZeroDivisionError` and an empty input makes
`batch_size = 0`, on which `range` raises `ValueError: range() arg 3 must
not be zero`; both are modelled as `none`. -/
def batch_slices (vacancies : List α) (MAX_PARALLEL_DRIVERS : Nat) :
    Option (List (List α)) :=
  if MAX_PARALLEL_DRIVERS = 0 then none
  else
    let batch_size := (vacancies.length + MAX_PARALLEL_DRIVERS - 1) / MAX_PARALLEL_DRIVERS
    if batch_size = 0 then none
    else some ((List.range ((vacancies.length + batch_size - 1) / batch_size)).map
      (fun i => (vacancies.drop (i * batch_size)).take batch_size))

/-- `apply_to_vacancies_parallel_batched` (lines 330-365) reduced to its
statistics: partition the input, run `apply_to_vacancy_batch` on every batch
and accumulate every batch's counters into `final_stats`. -/
def apply_to_vacancies_parallel_batched (outcome : α → String) (vacancies : List α)
    (MAX_PARALLEL_DRIVERS : Nat) : Option FinalStats :=
  (batch_slices vacancies MAX_PARALLEL_DRIVERS).map
    (fun batches => batches.foldl
      (fun st batch => st.add (apply_to_vacancy_batch outcome batch)) ⟨0, 0, 0, 0⟩)

/-- The sum of the four counters of a statistics record. -/
def FinalStats.total (st : FinalStats) : Nat :=
  st.applied + st.already_applied + st.rejected + st.errors

/-- The total number of summary items the service delivers on the pages
`page, page+1, …, page+count-1`. -/
def pageItemsSum (env : Env) (page count : Nat) : Nat :=
  ((List.range count).map (fun j => ((env.pages (page + j)).items).length)).sum

/-- A summary carrying only the fields the retrieval loop reads. -/
def mkSummary (i : Nat) (n : String) : Summary := ⟨i, n, "", none, none, ""⟩

/-- One well-behaved page of one summary; the service reports one result. -/
def envW : Env :=
  ⟨⟨200, 1⟩,
   fun p => if p = 0 then ⟨200, [mkSummary 1 "dev one"]⟩ else ⟨200, []⟩,
   fun _ => ⟨200, false, ⟨none, []⟩⟩⟩

/-- A service that reports `found = 1` but delivers two summaries on page 0. -/
def envOver : Env :=
  ⟨⟨200, 1⟩,
   fun p => if p = 0 then ⟨200, [mkSummary 1 "dev one", mkSummary 2 "dev two"]⟩
            else ⟨200, []⟩,
   fun _ => ⟨200, false, ⟨none, []⟩⟩⟩

/-- Four summaries on one page; ids 2 and 4 will already be in the seen
snapshot. -/
def envB : Env :=
  ⟨⟨200, 4⟩,
   fun p => if p = 0 then
      ⟨200, [mkSummary 1 "dev one", mkSummary 2 "dev two",
             mkSummary 3 "dev three", mkSummary 4 "dev four"]⟩
    else ⟨200, []⟩,
   fun _ => ⟨200, false, ⟨none, []⟩⟩⟩

/-- Page 0 delivers one vacancy whose detail succeeds; the detail of any
vacancy of page 1 raises the captcha condition. -/
def envC4 : Env :=
  ⟨⟨200, 5⟩,
   fun p => if p = 0 then ⟨200, [mkSummary 1 "dev one"]⟩
            else if p = 1 then ⟨200, [mkSummary 2 "dev two"]⟩
            else ⟨200, []⟩,
   fun vid => if vid = 1 then ⟨200, false, ⟨none, ["Python"]⟩⟩
              else ⟨403, true, ⟨none, []⟩⟩⟩

/-- The page-0 request fails with HTTP 500 (its items are never seen); page 1
succeeds. -/
def envC5 : Env :=
  ⟨⟨200, 2⟩,
   fun p => if p = 0 then ⟨500, [mkSummary 9 "dev nine"]⟩
            else if p = 1 then ⟨200, [mkSummary 7 "dev seven"]⟩
            else ⟨200, []⟩,
   fun _ => ⟨200, false, ⟨none, []⟩⟩⟩

/-- The probe itself fails. -/
def envProbeFail : Env :=
  ⟨⟨500, 7⟩, fun _ => ⟨200, []⟩, fun _ => ⟨200, false, ⟨none, []⟩⟩⟩

/-- Page 0 has a vacancy whose detail request returns 403 without the captcha
marker (id 1) and a vacancy whose detail succeeds (id 2); page 1 has another
vacancy with a good detail (id 3). -/
def envC10 : Env :=
  ⟨⟨200, 2⟩,
   fun p => if p = 0 then ⟨200, [mkSummary 1 "dev one", mkSummary 2 "dev two"]⟩
            else if p = 1 then ⟨200, [mkSummary 3 "dev three"]⟩
            else ⟨200, []⟩,
   fun vid => if vid = 2 then ⟨200, false, ⟨none, ["Python"]⟩⟩
              else if vid = 3 then ⟨200, false, ⟨some "desc", ["python", "sql"]⟩⟩
              else ⟨403, false, ⟨none, []⟩⟩⟩

/-- The record `parse_vacancy` produces for `mkSummary 1 "dev one"` without a
detail description. -/
def recOf (i : Nat) (n : String) (d : String) : VacRec :=
  [("id", Val.nat i), ("name", Val.str n), ("description", Val.str d)]

example : clean_html "<p>Python<br>developer</p>" = "Python\ndeveloper" := by decide
example : clean_html "a &amp; b<br  />c" = "a   b\nc" := by decide
example : has_required_skills ⟨none, ["Python", "SQL"]⟩ ["python", "sql"] = true := by decide
example : nameExcluded "Преподаватель Python" = true := by decide
example : nameExcluded "Python developer" = false := by decide
example : batch_slices (List.range 10) 3 = some [[0,1,2,3],[4,5,6,7],[8,9]] := by decide
example : batch_slices ([] : List Nat) 3 = none := by decide
example : get_vacancies_async ⟨100⟩ envB 10 none [2, 4] =
    ([recOf 1 "dev one" "Описание отсутствует", recOf 3 "dev three" "Описание отсутствует"], 4) := by
  decide

/-! Helper lemmas about the batch partitioning. -/

theorem ceil_div_bounds (L bs : Nat) (hbs : 1 ≤ bs) :
    L ≤ ((L + bs - 1) / bs) * bs ∧ ((L + bs - 1) / bs) * bs < L + bs := by
  have h1 : bs * ((L + bs - 1) / bs) + (L + bs - 1) % bs = L + bs - 1 :=
    Nat.div_add_mod (L + bs - 1) bs
  have h2 : (L + bs - 1) % bs < bs := Nat.mod_lt _ (by omega)
  have h3 : bs * ((L + bs - 1) / bs) = ((L + bs - 1) / bs) * bs := Nat.mul_comm _ _
  omega

theorem chunks_flatten {α : Type} (bs : Nat) (_hbs : 1 ≤ bs) :
    ∀ (n : Nat) (l : List α), l.length ≤ n * bs → n * bs < l.length + bs →
      ((List.range n).map (fun i => (l.drop (i * bs)).take bs)).flatten = l := by
  intro n
  induction n with
  | zero =>
    intro l h1 _
    have hl : l = [] := List.eq_nil_of_length_eq_zero (by simpa using h1)
    simp [hl]
  | succ n ih =>
    intro l h1 h2
    rw [List.range_succ_eq_map, List.map_cons, List.map_map, List.flatten_cons]
    have hmap : List.map ((fun i => (l.drop (i * bs)).take bs) ∘ Nat.succ) (List.range n)
        = List.map (fun i => ((l.drop bs).drop (i * bs)).take bs) (List.range n) := by
      apply List.map_congr_left
      intro i _
      simp only [Function.comp_apply]
      rw [List.drop_drop]
      have he : Nat.succ i * bs = bs + i * bs := by
        have := Nat.succ_mul i bs
        omega
      rw [he]
    have hsucc : (n + 1) * bs = n * bs + bs := by rw [Nat.add_mul, Nat.one_mul]
    rw [hmap, Nat.zero_mul, List.drop_zero,
      ih (l.drop bs) (by simp [List.length_drop]; omega) (by simp [List.length_drop]; omega),
      List.take_append_drop]

theorem chunks_size_exact {α : Type} (bs n : Nat) (l : List α)
    (h2 : n * bs < l.length + bs) :
    ∀ i, i + 1 < n → ((l.drop (i * bs)).take bs).length = bs := by
  intro i hi
  rw [List.length_take, List.length_drop]
  have hmul : (i + 2) * bs ≤ n * bs := Nat.mul_le_mul_right bs (by omega)
  have hexp : (i + 2) * bs = i * bs + 2 * bs := Nat.add_mul i 2 bs
  omega

theorem chunks_size_pos {α : Type} (bs n : Nat) (l : List α) (_hbs : 1 ≤ bs)
    (h2 : n * bs < l.length + bs) :
    ∀ i, i < n → 1 ≤ ((l.drop (i * bs)).take bs).length := by
  intro i hi
  rw [List.length_take, List.length_drop]
  have hmul : (i + 1) * bs ≤ n * bs := Nat.mul_le_mul_right bs (by omega)
  have hexp : (i + 1) * bs = i * bs + 1 * bs := Nat.add_mul i 1 bs
  omega

theorem chunks_count_le (L bs n k : Nat) (_hbs : 1 ≤ bs) (hn : n * bs < L + bs)
    (hLk : L ≤ bs * k) : n ≤ k := by
  rcases n with _ | m
  · omega
  · have hexp : (m + 1) * bs = m * bs + bs := by rw [Nat.add_mul, Nat.one_mul]
    have hcomm : bs * k = k * bs := Nat.mul_comm bs k
    have hm : m * bs < k * bs := by omega
    have := lt_of_mul_lt_mul_right hm (Nat.zero_le bs)
    omega

theorem map_dropLast_eq {α β : Type} (f : α → β) : ∀ l : List α,
    (l.map f).dropLast = l.dropLast.map f := by
  intro l
  induction l with
  | nil => rfl
  | cons a t ih =>
    cases t with
    | nil => rfl
    | cons b t2 => simp [ih]

theorem tally_total (s : String) (st : FinalStats) :
    (tallyStatus s st).total = st.total + 1 := by
  unfold tallyStatus FinalStats.total
  repeat' split
  all_goals simp
  all_goals omega

theorem foldl_tally_total {α : Type} (outcome : α → String) :
    ∀ (l : List α) (st : FinalStats),
      (l.foldl (fun st v => tallyStatus (outcome v) st) st).total = st.total + l.length := by
  intro l
  induction l with
  | nil => intro st; simp
  | cons a t ih =>
    intro st
    simp only [List.foldl_cons, List.length_cons]
    rw [ih, tally_total]
    omega

theorem apply_to_vacancy_batch_total {α : Type} (outcome : α → String) (l : List α) :
    (apply_to_vacancy_batch outcome l).total = l.length := by
  unfold apply_to_vacancy_batch
  rw [foldl_tally_total]
  simp [FinalStats.total]

theorem add_total (a b : FinalStats) : (a.add b).total = a.total + b.total := by
  simp only [FinalStats.add, FinalStats.total]
  omega

theorem foldl_add_total {α : Type} (outcome : α → String) :
    ∀ (batches : List (List α)) (st : FinalStats),
      (batches.foldl (fun st b => st.add (apply_to_vacancy_batch outcome b)) st).total =
        st.total + (batches.map List.length).sum := by
  intro batches
  induction batches with
  | nil => intro st; simp
  | cons b t ih =>
    intro st
    simp only [List.foldl_cons, List.map_cons, List.sum_cons]
    rw [ih, add_total, apply_to_vacancy_batch_total]
    omega

/-! Helper lemmas about the retrieval loop. -/

theorem pageItemsSum_succ (env : Env) (page c : Nat) :
    pageItemsSum env page (c + 1) =
      ((env.pages page).items).length + pageItemsSum env (page + 1) c := by
  unfold pageItemsSum
  rw [List.range_succ_eq_map, List.map_cons, List.map_map, List.sum_cons]
  congr 1
  apply congrArg
  apply List.map_congr_left
  intro j _
  simp only [Function.comp_apply]
  have he : page + Nat.succ j = page + 1 + j := by omega
  rw [he]

theorem pageContrib_length_le (env : Env) (skills : Option (List String))
    (seen : ProcessedIdSet) (page : Nat) (recs : List VacRec) :
    pageContrib env skills seen page = .ok recs →
      recs.length ≤ ((env.pages page).items).length := by
  intro h
  have hfp : (fetch_page env page).length ≤ ((env.pages page).items).length := by
    unfold fetch_page
    split
    · simp
    · exact Nat.le_refl _
  have hfil : ((fetch_page env page).filter (fun v => !(seen.contains v.id))
      |>.filter (fun v => !(nameExcluded v.name))).length ≤ (fetch_page env page).length :=
    Nat.le_trans (List.length_filter_le _ _) (List.length_filter_le _ _)
  unfold pageContrib at h
  rcases skills with _ | skills'
  · simp only at h
    obtain rfl : recs = _ := by
      injection h with h'
      exact h'.symm
    rw [List.length_map]
    omega
  · rcases skills' with _ | ⟨s, req⟩
    · simp only at h
      obtain rfl : recs = _ := by
        injection h with h'
        exact h'.symm
      rw [List.length_map]
      omega
    · simp only at h
      rcases hfd : fetch_details_batch env ((fetch_page env page).filter
          (fun v => !(seen.contains v.id)) |>.filter (fun v => !(nameExcluded v.name))) with e | details
      · rw [hfd] at h
        exact absurd h (by simp)
      · rw [hfd] at h
        injection h with h'
        subst h'
        calc ((((fetch_page env page).filter (fun v => !(seen.contains v.id))
              |>.filter (fun v => !(nameExcluded v.name))).zip details).filterMap _).length
            ≤ (((fetch_page env page).filter (fun v => !(seen.contains v.id))
              |>.filter (fun v => !(nameExcluded v.name))).zip details).length :=
              List.length_filterMap_le _ _
          _ ≤ ((fetch_page env page).filter (fun v => !(seen.contains v.id))
              |>.filter (fun v => !(nameExcluded v.name))).length := by
              rw [List.length_zip]
              omega
          _ ≤ ((env.pages page).items).length := by omega

theorem runLoop_length_le (cfg : Settings) (env : Env) (maxV : Nat)
    (skills : Option (List String)) (seen : ProcessedIdSet) (total : Nat)
    (hpp : 1 ≤ cfg.per_page) :
    ∀ (fuel page : Nat) (data : List VacRec),
      (runLoop cfg env maxV skills seen total fuel page data).length ≤
        data.length + pageItemsSum env page (total - page) := by
  intro fuel
  induction fuel with
  | zero =>
    intro page data
    simp [runLoop]
  | succ f ih =>
    intro page data
    simp only [runLoop]
    split
    · next hguard =>
      split
      · exact Nat.le_add_right _ _
      · next recs heq =>
        have hle := ih (page + 1) (data ++ recs)
        have hcontr := pageContrib_length_le env skills seen page recs heq
        have hplt : page < total := by
          have h2 := hguard.2
          have hmul : page ≤ page * cfg.per_page := Nat.le_mul_of_pos_right page (by omega)
          omega
        have hsub : total - page = (total - (page + 1)) + 1 := by omega
        rw [hsub, pageItemsSum_succ]
        rw [List.length_append] at hle
        omega
    · exact Nat.le_add_right _ _

theorem runLoop_mem (cfg : Settings) (env : Env) (maxV : Nat)
    (skills : Option (List String)) (seen : ProcessedIdSet) (total : Nat) :
    ∀ (fuel page : Nat) (data : List VacRec) (rec : VacRec),
      rec ∈ runLoop cfg env maxV skills seen total fuel page data →
      rec ∈ data ∨ ∃ p recs, pageContrib env skills seen p = .ok recs ∧ rec ∈ recs := by
  intro fuel
  induction fuel with
  | zero =>
    intro page data rec h
    simp only [runLoop] at h
    exact Or.inl h
  | succ f ih =>
    intro page data rec h
    simp only [runLoop] at h
    split at h
    · split at h
      · exact Or.inl h
      · next recs heq =>
        rcases ih (page + 1) (data ++ recs) rec h with hmem | hex
        · rcases List.mem_append.mp hmem with h1 | h2
          · exact Or.inl h1
          · exact Or.inr ⟨page, recs, heq, h2⟩
        · exact Or.inr hex
    · exact Or.inl h

theorem lookup_id_parse (v : Summary) (det : Option Detail) :
    List.lookup "id" (parse_vacancy v det) = some (Val.nat v.id) := rfl

theorem pageContrib_mem_id (env : Env) (skills : Option (List String))
    (seen : ProcessedIdSet) (page : Nat) (recs : List VacRec) (rec : VacRec) :
    pageContrib env skills seen page = .ok recs → rec ∈ recs →
      ∃ v : Summary, seen.contains v.id = false ∧
        List.lookup "id" rec = some (Val.nat v.id) := by
  intro h hmem
  unfold pageContrib at h
  dsimp only at h
  split at h
  · next s req =>
    split at h
    · exact absurd h (by simp)
    · next details heq =>
      injection h with h'
      subst h'
      rcases List.mem_filterMap.mp hmem with ⟨⟨v, det⟩, hvd, hg⟩
      have hv : v ∈ ((fetch_page env page).filter
          (fun v => !(seen.contains v.id))).filter (fun v => !(nameExcluded v.name)) :=
        (List.of_mem_zip hvd).1
      have hv1 := (List.mem_filter.mp hv).1
      have hseen := (List.mem_filter.mp hv1).2
      split at hg
      · injection hg with hg'
        refine ⟨v, by simpa using hseen, ?_⟩
        rw [← hg']
        exact lookup_id_parse v det
      · exact absurd hg (by simp)
  · injection h with h'
    subst h'
    rcases List.mem_map.mp hmem with ⟨v, hv, hrec⟩
    have hv1 := (List.mem_filter.mp hv).1
    have hseen := (List.mem_filter.mp hv1).2
    refine ⟨v, by simpa using hseen, ?_⟩
    rw [← hrec]
    exact lookup_id_parse v none

theorem runLoop_reach (cfg : Settings) (env : Env) (maxV : Nat)
    (skills : Option (List String)) (seen : ProcessedIdSet) (total : Nat) :
    ∀ (k fuel page : Nat), k + 1 ≤ fuel →
      (∀ q, page ≤ q → q < page + k → ∃ recs, pageContrib env skills seen q = .ok recs) →
      pageContrib env skills seen (page + k) = .error () →
      (∀ q, page ≤ q → q ≤ page + k →
        (accumUpTo env skills seen q).length < maxV ∧ q * cfg.per_page < total) →
      runLoop cfg env maxV skills seen total fuel page (accumUpTo env skills seen page) =
        accumUpTo env skills seen (page + k) := by
  intro k
  induction k with
  | zero =>
    intro fuel page hfuel hok herr hg
    rcases fuel with _ | f
    · omega
    · simp only [Nat.add_zero] at herr ⊢
      simp only [runLoop]
      rw [if_pos (hg page (Nat.le_refl page) (by omega)), herr]
  | succ k ih =>
    intro fuel page hfuel hok herr hg
    rcases fuel with _ | f
    · omega
    · obtain ⟨recs, hok0⟩ := hok page (Nat.le_refl page) (by omega)
      have haccum : accumUpTo env skills seen (page + 1) =
          accumUpTo env skills seen page ++ recs := by
        simp [accumUpTo, hok0, Except.toOption]
      simp only [runLoop]
      rw [if_pos (hg page (Nat.le_refl page) (by omega)), hok0]
      show runLoop cfg env maxV skills seen total f (page + 1)
          (accumUpTo env skills seen page ++ recs) =
        accumUpTo env skills seen (page + (k + 1))
      rw [← haccum]
      have hpk : page + (k + 1) = (page + 1) + k := by omega
      rw [hpk]
      exact ih f (page + 1) (by omega)
        (fun q h1 h2 => hok q (by omega) (by omega))
        (hpk ▸ herr)
        (fun q h1 h2 => hg q (by omega) (by omega))

theorem batch_slices_spec {α : Type} (l : List α) (k : Nat) (hk : 1 ≤ k) (hne : l ≠ []) :
    ∃ n, batch_slices l k =
        some ((List.range n).map
          (fun i => (l.drop (i * ((l.length + k - 1) / k))).take ((l.length + k - 1) / k))) ∧
      l.length ≤ n * ((l.length + k - 1) / k) ∧
      n * ((l.length + k - 1) / k) < l.length + ((l.length + k - 1) / k) ∧
      n ≤ k ∧ 1 ≤ (l.length + k - 1) / k := by
  have hL : 1 ≤ l.length := List.length_pos.mpr hne
  have hbs : 1 ≤ (l.length + k - 1) / k := by
    rw [Nat.one_le_div_iff (by omega)]
    omega
  have hb2 : l.length ≤ ((l.length + k - 1) / k) * k := (ceil_div_bounds l.length k hk).1
  have hb1 := ceil_div_bounds l.length ((l.length + k - 1) / k) hbs
  refine ⟨(l.length + ((l.length + k - 1) / k) - 1) / ((l.length + k - 1) / k), ?_, hb1.1, hb1.2,
    ?_, hbs⟩
  · simp only [batch_slices]
    rw [if_neg (show ¬k = 0 by omega), if_neg (show ¬(l.length + k - 1) / k = 0 by omega)]
  · refine chunks_count_le l.length ((l.length + k - 1) / k) _ k hbs hb1.2 ?_
    calc l.length ≤ ((l.length + k - 1) / k) * k := hb2
      _ = ((l.length + k - 1) / k) * k := rfl

/-- C7: for every input record list and sessionCount `k ≥ 1`,
`apply_to_vacancies_parallel_batched` slices the list into contiguous batches
of size `ceil(len/k)` (the last batch may be smaller), the batches partition
the input exactly, at most `k` batches are created, and for 10 records with
`k = 3` the batch sizes are `[4, 4, 2]` — amended to require a nonempty
record list, because on the empty list the Python slicing raises
`ValueError: range() arg 3 must not be zero` instead of producing batches. -/
theorem C7_batch_partition :
    (∀ (α : Type) (l : List α) (k : Nat), 1 ≤ k → l ≠ [] →
      ∃ batches, batch_slices l k = some batches ∧
        batches.flatten = l ∧
        batches.length ≤ k ∧
        (∀ b ∈ batches.dropLast, b.length = (l.length + k - 1) / k) ∧
        (∀ b ∈ batches, b.length ≤ (l.length + k - 1) / k ∧ b ≠ [])) ∧
    (batch_slices (List.range 10) 3).map (fun batches => batches.map List.length) =
      some [4, 4, 2] := by
  constructor
  · intro α l k hk hne
    obtain ⟨n, heq, h1, h2, hnk, hbs⟩ := batch_slices_spec l k hk hne
    refine ⟨_, heq, chunks_flatten _ hbs n l h1 h2, ?_, ?_, ?_⟩
    · simpa using hnk
    · intro b hb
      rw [map_dropLast_eq] at hb
      rcases n with _ | m
      · simp at hb
      · rw [List.range_succ, List.dropLast_concat] at hb
        rcases List.mem_map.mp hb with ⟨i, hi, rfl⟩
        exact chunks_size_exact _ (m + 1) l h2 i (by have := List.mem_range.mp hi; omega)
    · intro b hb
      rcases List.mem_map.mp hb with ⟨i, hi, rfl⟩
      refine ⟨List.length_take_le _ _, ?_⟩
      have hpos := chunks_size_pos _ n l hbs h2 i (List.mem_range.mp hi)
      exact List.length_pos.mp (by omega)
  · decide

/-- Witness for C7 at a concrete nonempty list and `k = 2`. -/
theorem C7_batch_partition_w :
    [10, 20, 30] ≠ ([] : List Nat) ∧
    ∃ batches, batch_slices [10, 20, 30] 2 = some batches ∧
      batches.flatten = [10, 20, 30] ∧
      batches.length ≤ 2 ∧
      (∀ b ∈ batches.dropLast, b.length = 2) ∧
      (∀ b ∈ batches, b.length ≤ 2 ∧ b ≠ []) :=
  ⟨by decide, C7_batch_partition.1 Nat [10, 20, 30] 2 (by decide) (by decide)⟩

/-- Counterexample for C7 as stated: on the empty record list (with
`sessionCount = 3 ≥ 1`) the batching step raises instead of producing a
partition of the input. -/
theorem C7_batch_partition_cex : batch_slices ([] : List Nat) 3 = none := by decide

/-- C8: for every record list of length `L` and every `k ≥ 1`, the batches
satisfy `sum(len(batch)) = L` and their union as a set equals the input set —
amended: the list must be nonempty (empty input raises), and the claimed
bound `max(len) - min(len) ≤ 1` is false (10 records with `k = 3` give sizes
`[4, 4, 2]`); what holds is that every batch except possibly the last has
exactly `ceil(L/k)` elements and none is larger or empty. -/
theorem C8_partition_stats :
    ∀ (α : Type) (l : List α) (k : Nat), 1 ≤ k → l ≠ [] →
      ∃ batches, batch_slices l k = some batches ∧
        (batches.map List.length).sum = l.length ∧
        (∀ x, (∃ b ∈ batches, x ∈ b) ↔ x ∈ l) ∧
        (∀ b ∈ batches.dropLast, b.length = (l.length + k - 1) / k) ∧
        (∀ b ∈ batches, 1 ≤ b.length ∧ b.length ≤ (l.length + k - 1) / k) := by
  intro α l k hk hne
  obtain ⟨n, heq, h1, h2, hnk, hbs⟩ := batch_slices_spec l k hk hne
  have hflat := chunks_flatten _ hbs n l h1 h2
  refine ⟨_, heq, ?_, ?_, ?_, ?_⟩
  · have hc := congrArg List.length hflat
    rw [List.length_flatten] at hc
    exact hc
  · intro x
    rw [← List.mem_flatten, hflat]
  · intro b hb
    rw [map_dropLast_eq] at hb
    rcases n with _ | m
    · simp at hb
    · rw [List.range_succ, List.dropLast_concat] at hb
      rcases List.mem_map.mp hb with ⟨i, hi, rfl⟩
      exact chunks_size_exact _ (m + 1) l h2 i (by have := List.mem_range.mp hi; omega)
  · intro b hb
    rcases List.mem_map.mp hb with ⟨i, hi, rfl⟩
    exact ⟨chunks_size_pos _ n l hbs h2 i (List.mem_range.mp hi), List.length_take_le _ _⟩

/-- Witness for C8 at a concrete nonempty list and `k = 2`. -/
theorem C8_partition_stats_w :
    [1, 2, 3, 4, 5] ≠ ([] : List Nat) ∧
    ∃ batches, batch_slices [1, 2, 3, 4, 5] 2 = some batches ∧
      (batches.map List.length).sum = 5 ∧
      (∀ x, (∃ b ∈ batches, x ∈ b) ↔ x ∈ [1, 2, 3, 4, 5]) ∧
      (∀ b ∈ batches.dropLast, b.length = 3) ∧
      (∀ b ∈ batches, 1 ≤ b.length ∧ b.length ≤ 3) :=
  ⟨by decide, C8_partition_stats Nat [1, 2, 3, 4, 5] 2 (by decide) (by decide)⟩

/-- Counterexample for C8 as stated: 10 records with `sessionCount = 3` give
batch sizes `[4, 4, 2]`, whose maximum and minimum differ by 2, violating
`max(len(batch)) - min(len(batch)) ≤ 1`. -/
theorem C8_partition_stats_cex :
    (batch_slices (List.range 10) 3).map (fun batches => batches.map List.length) =
      some [4, 4, 2] ∧ ¬((4 : Nat) - 2 ≤ 1) := by
  refine ⟨by decide, by decide⟩

/-- C9: for every apply run, each record is counted in exactly one of the four
outcome counters, so the aggregated statistics satisfy
`applied + alreadyApplied + rejected + errors = number of input records` —
amended to nonempty record lists, because the empty apply run raises in the
batch partitioning before any statistics are produced. -/
theorem C9_outcome_conservation :
    ∀ (α : Type) (outcome : α → String) (l : List α) (k : Nat), 1 ≤ k → l ≠ [] →
      ∃ st, apply_to_vacancies_parallel_batched outcome l k = some st ∧
        st.applied + st.already_applied + st.rejected + st.errors = l.length := by
  intro α outcome l k hk hne
  obtain ⟨n, heq, h1, h2, hnk, hbs⟩ := batch_slices_spec l k hk hne
  have hflat := chunks_flatten _ hbs n l h1 h2
  refine ⟨((List.range n).map
      (fun i => (l.drop (i * ((l.length + k - 1) / k))).take ((l.length + k - 1) / k))).foldl
      (fun st batch => st.add (apply_to_vacancy_batch outcome batch)) ⟨0, 0, 0, 0⟩, ?_, ?_⟩
  · unfold apply_to_vacancies_parallel_batched
    rw [heq]
    rfl
  · have ht := foldl_add_total outcome ((List.range n).map
      (fun i => (l.drop (i * ((l.length + k - 1) / k))).take ((l.length + k - 1) / k)))
      ⟨0, 0, 0, 0⟩
    unfold FinalStats.total at ht
    simp only at ht
    have hlen : ((((List.range n).map
        (fun i => (l.drop (i * ((l.length + k - 1) / k))).take
          ((l.length + k - 1) / k)))).map List.length).sum = l.length := by
      have hc := congrArg List.length hflat
      rw [List.length_flatten] at hc
      exact hc
    omega

/-- Witness for C9 at a concrete oracle, three records and `k = 2`. -/
theorem C9_outcome_conservation_w :
    [0, 1, 2] ≠ ([] : List Nat) ∧
    ∃ st, apply_to_vacancies_parallel_batched
        (fun n => if n = 0 then "applied" else "strange") [0, 1, 2] 2 = some st ∧
      st.applied + st.already_applied + st.rejected + st.errors = 3 :=
  ⟨by decide, C9_outcome_conservation Nat
    (fun n => if n = 0 then "applied" else "strange") [0, 1, 2] 2 (by decide) (by decide)⟩

/-- Counterexample for C9 as stated: the apply run on the empty record list
produces no statistics at all (the partitioning raises), rather than a
statistics record with all counters zero. -/
theorem C9_outcome_conservation_cex :
    apply_to_vacancies_parallel_batched (fun (_ : Nat) => "applied") [] 3 = none := by
  decide

/-- C1: for every retrieval run the returned record list satisfies
`len(records) ≤ maxResults` (the accumulated list is truncated to
`max_vacancies` before returning) — amended: `len(records) ≤ totalFound`
additionally requires the service to be consistent, i.e. the pages it
returns deliver at most `totalFound` summaries in total; the code never
enforces this bound itself, so an over-delivering page violates it. -/
theorem C1_result_bounds :
    ∀ (cfg : Settings) (env : Env) (max_vacancies : Nat)
      (required_skills : Option (List String)) (seen_ids : ProcessedIdSet),
      (get_vacancies_async cfg env max_vacancies required_skills seen_ids).1.length ≤
        max_vacancies ∧
      (1 ≤ cfg.per_page →
        pageItemsSum env 0 (get_total_count env) ≤ get_total_count env →
        (get_vacancies_async cfg env max_vacancies required_skills seen_ids).1.length ≤
          (get_vacancies_async cfg env max_vacancies required_skills seen_ids).2) := by
  intro cfg env maxV skills seen
  constructor
  · simp only [get_vacancies_async]
    rw [List.length_take]
    omega
  · intro hpp hsum
    simp only [get_vacancies_async]
    rw [List.length_take]
    have hrun := runLoop_length_le cfg env maxV skills seen (get_total_count env) hpp
      (get_total_count env + 1) 0 []
    simp only [List.length_nil, Nat.zero_add, Nat.sub_zero] at hrun
    omega

/-- Witness for C1 against a consistent service delivering one summary. -/
theorem C1_result_bounds_w :
    1 ≤ (⟨100⟩ : Settings).per_page ∧
    pageItemsSum envW 0 (get_total_count envW) ≤ get_total_count envW ∧
    (get_vacancies_async ⟨100⟩ envW 5 none []).1.length ≤
      (get_vacancies_async ⟨100⟩ envW 5 none []).2 :=
  ⟨by decide, by decide,
    (C1_result_bounds ⟨100⟩ envW 5 none []).2 (by decide) (by decide)⟩

/-- Counterexample for C1 as stated: a service reporting `found = 1` while
delivering two fresh summaries on page 0 makes the run return 2 records with
`totalFound = 1`, so `len(records) ≤ totalFound` fails. -/
theorem C1_result_bounds_cex :
    (get_vacancies_async ⟨100⟩ envOver 5 none []).2 = 1 ∧
    (get_vacancies_async ⟨100⟩ envOver 5 none []).1.length = 2 ∧
    ¬((2 : Nat) ≤ 1) := by
  refine ⟨by decide, by decide, by decide⟩

/-- C2: every record returned by a retrieval run carries an id that is not in
the ProcessedIdSet snapshot loaded at run start, and in the concrete
Scenario-B run (four fetched ids, two of them — 2 and 4 — already seen) the
output is exactly the records of ids 1 and 3 with count 2. -/
theorem C2_dedup_exclusion :
    (∀ (cfg : Settings) (env : Env) (max_vacancies : Nat)
       (required_skills : Option (List String)) (seen_ids : ProcessedIdSet)
       (rec : VacRec) (n : Nat),
       rec ∈ (get_vacancies_async cfg env max_vacancies required_skills seen_ids).1 →
       List.lookup "id" rec = some (Val.nat n) → seen_ids.contains n = false) ∧
    get_vacancies_async ⟨100⟩ envB 10 none [2, 4] =
      ([recOf 1 "dev one" "Описание отсутствует",
        recOf 3 "dev three" "Описание отсутствует"], 4) := by
  constructor
  · intro cfg env maxV skills seen rec n hmem hlook
    have hmem' : rec ∈ runLoop cfg env maxV skills seen (get_total_count env)
        (get_total_count env + 1) 0 [] := by
      simp only [get_vacancies_async] at hmem
      exact List.mem_of_mem_take hmem
    rcases runLoop_mem cfg env maxV skills seen (get_total_count env)
        (get_total_count env + 1) 0 [] rec hmem' with h | ⟨p, recs, hok, hin⟩
    · simp at h
    · obtain ⟨v, hseen, hid⟩ := pageContrib_mem_id env skills seen p recs rec hok hin
      rw [hlook] at hid
      injection hid with h1
      injection h1 with h2
      rw [h2]
      exact hseen
  · decide

/-- Witness for C2: in the Scenario-B run the record of id 1 is in the output,
its id entry is 1, and 1 is not in the seen snapshot `[2, 4]`. -/
theorem C2_dedup_exclusion_w :
    recOf 1 "dev one" "Описание отсутствует" ∈
        (get_vacancies_async ⟨100⟩ envB 10 none [2, 4]).1 ∧
    List.lookup "id" (recOf 1 "dev one" "Описание отсутствует") = some (Val.nat 1) ∧
    ([2, 4] : ProcessedIdSet).contains 1 = false :=
  ⟨by decide, by decide,
    C2_dedup_exclusion.1 ⟨100⟩ envB 10 none [2, 4]
      (recOf 1 "dev one" "Описание отсутствует") 1 (by decide) (by decide)⟩

/-- C3: when required skills are given, a summary with a fetched detail is
kept by the skill filter exactly when every required skill, lowercased,
occurs among the lowercased keySkills (superset test); in particular
keySkills `{python, sql}` with required `{python}` is kept and with required
`{python, java}` is dropped. -/
theorem C3_skill_filter :
    (∀ (required_skills : List String) (d : Detail),
       detailKept required_skills (some d) = true ↔
         ∀ s ∈ required_skills, pyLower s ∈ d.key_skills.map pyLower) ∧
    detailKept ["python"] (some ⟨none, ["python", "sql"]⟩) = true ∧
    detailKept ["python", "java"] (some ⟨none, ["python", "sql"]⟩) = false := by
  refine ⟨?_, by decide, by decide⟩
  intro req d
  simp [detailKept, has_required_skills]

/-- Witness for C3: the superset direction applied at a concrete detail whose
skill case differs from the required skill's case. -/
theorem C3_skill_filter_w :
    detailKept ["sql"] (some ⟨none, ["SQL"]⟩) = true :=
  (C3_skill_filter.1 ["sql"] ⟨none, ["SQL"]⟩).mpr (by decide)

/-- C4: if `CaptchaRequired` escapes the detail batch fetch of page `p` (all
earlier pages having succeeded, the loop guards holding up to `p`), the loop
breaks immediately and the run returns the records accumulated through page
`p - 1`, truncated to `max_vacancies`, together with the probed total,
unchanged. -/
theorem C4_captcha_abort :
    ∀ (cfg : Settings) (env : Env) (max_vacancies : Nat)
      (required_skills : Option (List String)) (seen_ids : ProcessedIdSet) (p : Nat),
      1 ≤ cfg.per_page →
      (∀ q, q < p → ∃ recs, pageContrib env required_skills seen_ids q = .ok recs) →
      pageContrib env required_skills seen_ids p = .error () →
      (∀ q, q ≤ p →
        (accumUpTo env required_skills seen_ids q).length < max_vacancies ∧
          q * cfg.per_page < get_total_count env) →
      get_vacancies_async cfg env max_vacancies required_skills seen_ids =
        ((accumUpTo env required_skills seen_ids p).take max_vacancies,
          get_total_count env) := by
  intro cfg env maxV skills seen p hpp hok herr hg
  have hplt : p < get_total_count env := by
    have h := (hg p (Nat.le_refl p)).2
    have hmul : p ≤ p * cfg.per_page := Nat.le_mul_of_pos_right p (by omega)
    omega
  have hreach := runLoop_reach cfg env maxV skills seen (get_total_count env) p
    (get_total_count env + 1) 0 (by omega)
    (fun q h1 h2 => hok q (by omega))
    (by simpa using herr)
    (fun q h1 h2 => hg q (by omega))
  rw [show accumUpTo env skills seen 0 = ([] : List VacRec) from rfl] at hreach
  simp only [Nat.zero_add] at hreach
  simp only [get_vacancies_async]
  rw [hreach]

/-- Witness for C4: captcha on page 1 of a three-page run returns exactly the
page-0 records and the probed total 5. -/
theorem C4_captcha_abort_w :
    get_vacancies_async ⟨2⟩ envC4 10 (some ["python"]) [] =
      ([recOf 1 "dev one" "Описание отсутствует"], 5) := by
  have h := C4_captcha_abort ⟨2⟩ envC4 10 (some ["python"]) [] 1 (by decide)
    (fun q hq => by
      have hq0 : q = 0 := by omega
      subst hq0
      exact ⟨_, rfl⟩)
    rfl
    (fun q hq => by
      interval_cases q
      · exact ⟨by decide, by decide⟩
      · exact ⟨by decide, by decide⟩)
  rw [h]
  decide

/-- C5: no `TransportError` is raised anywhere — amended: a non-success
status on the probe makes the run return `([], 0)`; a non-success status on a
page fetch yields an empty item list for that page only, after which the loop
advances to the following page (retrieval is NOT aborted); the status code is
logged but carried by no exception. -/
theorem C5_nonsuccess_swallowed :
    ∀ (cfg : Settings) (env : Env) (max_vacancies : Nat)
      (required_skills : Option (List String)) (seen_ids : ProcessedIdSet),
      ((env.probe).status ≠ 200 →
        get_vacancies_async cfg env max_vacancies required_skills seen_ids = ([], 0)) ∧
      (∀ q, (env.pages q).status ≠ 200 →
        pageContrib env required_skills seen_ids q = .ok []) ∧
      (∀ (total fuel q : Nat) (data : List VacRec),
        data.length < max_vacancies ∧ q * cfg.per_page < total →
        pageContrib env required_skills seen_ids q = .ok [] →
        runLoop cfg env max_vacancies required_skills seen_ids total (fuel + 1) q data =
          runLoop cfg env max_vacancies required_skills seen_ids total fuel (q + 1) data) := by
  intro cfg env maxV skills seen
  refine ⟨?_, ?_, ?_⟩
  · intro hprobe
    have htot : get_total_count env = 0 := by
      unfold get_total_count
      rw [if_pos hprobe]
    simp only [get_vacancies_async, htot]
    simp only [runLoop]
    rw [if_neg (by omega)]
    simp
  · intro q hq
    have hfp : fetch_page env q = [] := by
      unfold fetch_page
      rw [if_pos hq]
    unfold pageContrib
    rw [hfp]
    rcases skills with _ | ⟨_ | ⟨s, req⟩⟩
    · simp
    · simp
    · simp only []
      rfl
  · intro total fuel q data hguard hok
    simp only [runLoop]
    rw [if_pos hguard, hok]
    show runLoop cfg env maxV skills seen total fuel (q + 1) (data ++ []) = _
    rw [List.append_nil]

/-- Witness for C5: a failed probe yields the empty run result `([], 0)`. -/
theorem C5_nonsuccess_swallowed_w :
    (envProbeFail.probe).status ≠ 200 ∧
    get_vacancies_async ⟨100⟩ envProbeFail 5 none [] = ([], 0) :=
  ⟨by decide, (C5_nonsuccess_swallowed ⟨100⟩ envProbeFail 5 none []).1 (by decide)⟩

/-- Counterexample for C5 as stated: the page-0 fetch of this run fails with
HTTP 500, yet the loop goes on to page 1 and returns its record — the claimed
abort (returning only what was accumulated, attempting no further page) does
not happen, and no error object carrying the status exists. -/
theorem C5_nonsuccess_swallowed_cex :
    (envC5.pages 0).status ≠ 200 ∧
    get_vacancies_async ⟨1⟩ envC5 5 none [] =
      ([recOf 7 "dev seven" "Описание отсутствует"], 2) := by
  refine ⟨by decide, by decide⟩

/-- C6: the records produced by retrieval carry ONLY the keys `id`, `name`
and (sanitized) `description`; the summary fields `url`, `salary_from`,
`salary_to`, `area` claimed by the spec are absent, so the repository's own
`DBVacanciesManager.write_data`, which reads `v["url"]` etc., fails on every
such record (`KeyError`, modelled as `none`). -/
theorem C6_vacancy_record_fields :
    ∀ (vacancy : Summary) (detail : Option Detail),
      (parse_vacancy vacancy detail).map Prod.fst = ["id", "name", "description"] ∧
      List.lookup "url" (parse_vacancy vacancy detail) = none ∧
      List.lookup "salary_from" (parse_vacancy vacancy detail) = none ∧
      List.lookup "area" (parse_vacancy vacancy detail) = none ∧
      write_data_row (parse_vacancy vacancy detail) = none := by
  intro v det
  exact ⟨rfl, rfl, rfl, rfl, rfl⟩

/-- C10: a detail response with any non-200 status that is not the captcha
condition — including a 403 whose body lacks the captcha marker — yields
`None`; the summary is then silently dropped by the skill filter, no error is
reported and the page loop continues, as the concrete run shows (the id-1
vacancy with a markerless 403 detail is excluded, page 1 is still fetched
and the run completes normally). -/
theorem C10_silent_detail_drop :
    (∀ r : DetailResp, r.status ≠ 200 → ¬(r.status = 403 ∧ r.captchaMarker = true) →
      detailResult r = .ok none) ∧
    (∀ required_skills : List String, detailKept required_skills none = false) ∧
    get_vacancies_async ⟨1⟩ envC10 10 (some ["python"]) [] =
      ([recOf 2 "dev two" "Описание отсутствует", recOf 3 "dev three" "desc"], 2) := by
  refine ⟨?_, fun _ => rfl, by decide⟩
  intro r h1 h2
  unfold detailResult
  rw [if_neg h1, if_neg h2]

/-- Witness for C10 at a markerless 403 detail response. -/
theorem C10_silent_detail_drop_w :
    detailResult ⟨403, false, ⟨none, []⟩⟩ = .ok none :=
  C10_silent_detail_drop.1 ⟨403, false, ⟨none, []⟩⟩ (by decide) (by decide)
